import Mathlib

/-!
A verification development for `src/promp/replayable.py`
(`ReplayableInteractiveProMP`): an event-sequence recorder/replayer layered
on top of the external interactive motion-primitive learner
(`InteractiveProMP` from `.interactive`, which is not part of this unit and
is therefore modelled from the spec as an opaque deterministic state
machine).

The embedding is shallow: the mutable object state (the two per-kind record
counters, the in-memory event sequence, the learner state) is threaded
explicitly, the dataset directory is an explicit store of payload files
keyed by their occurrence index, and exceptions are `Except.error`.
-/

namespace Promp

/-- Lookup in an association list keyed by natural numbers.  The first
binding for a key wins, so consing a new binding shadows an older one —
exactly the overwrite semantics of rewriting a file at the same path. -/
def fsLookup {α : Type} : List (Nat × α) → Nat → Option α
  | [], _ => none
  | (k, v) :: rest, k2 => if k2 = k then some v else fsLookup rest k2

/-- One entry of the persisted sequence manifest, from `replayable.py`:
either a demo record carrying the index of the primitive that absorbed the
demonstration (`{'type': 'demo', 'added_to': ...}`), or a goal record
carrying the learner's goal id and goal log
(`{'type': 'goal', 'id': ..., 'log': ...}`). -/
inductive Event (Gid Glog : Type) : Type
  | demo (added_to : Int)
  | goal (id : Gid) (log : Glog)

/-- The dataset directory on disk.  `replayable.py` writes the files
`demo_{i}.json` / `path_{i}.json` (per demo occurrence),
`cart_goal_{i}.json` / `joint_goal_{i}.json` (per goal occurrence) and
`sequence.json` (the manifest).  The five filename templates are mutually
non-overlapping and injective in the index `i`, so the store is modelled
per kind, keyed by the occurrence index.  JSON serialization round-trips
payloads unchanged, so payloads are stored as their values. -/
structure Store (De Ee Go Jo Gid Glog : Type) : Type where
  demos : List (Nat × De)
  paths : List (Nat × Ee)
  carts : List (Nat × Go)
  joints : List (Nat × Jo)
  manifest : Option (List (Event Gid Glog))

/-- Modelled from the spec: the external Learner (`InteractiveProMP`, the
base class living in `.interactive`, outside this unit) as a deterministic
state machine over an abstract state type `S`.
`add_demonstration` takes an optional `force_mp_target` and returns the
absorbing primitive index; `set_goal` returns whether the goal was taken
into account; `goal_id`, `goal_log` and `num_primitives` are readable
attributes of the current state; `generate_trajectory` is a read-only query
valid after a successful `set_goal`; `clear` resets all fitted state.
Fallible operations return `Except`, the error case standing for a raised
exception. -/
structure Learner (S De Ee Go Jo Tj Gid Glog : Type) : Type where
  add_demonstration : S → De → Ee → Option Int → Except String (S × Int)
  set_goal : S → Go → Option Jo → Bool → Except String (S × Bool)
  goal_id : S → Gid
  goal_log : S → Glog
  num_primitives : S → Nat
  generate_trajectory : S → Tj
  clear : S → S

/-- The mutable state of a `ReplayableInteractiveProMP` instance: the two
per-kind record counters, the in-memory event sequence, the dataset files
on disk, and the state of the underlying Learner. -/
structure RState (S De Ee Go Jo Gid Glog : Type) : Type where
  record_demo_id : Nat
  record_goal_id : Nat
  sequence : List (Event Gid Glog)
  files : Store De Ee Go Jo Gid Glog
  learner : S

variable {S De Ee Go Jo Tj Gid Glog : Type}

/-- A dataset directory with no files in it. -/
def emptyStore : Store De Ee Go Jo Gid Glog := ⟨[], [], [], [], none⟩

/-- A freshly constructed recorder over an empty dataset directory, with
the Learner in starting state `s0`: both counters zero, empty sequence. -/
def initState (s0 : S) : RState S De Ee Go Jo Gid Glog :=
  ⟨0, 0, [], emptyStore, s0⟩

/-- The file writes performed by `add_demonstration`: the joint-space demo
and the end-effector path, both under the current demo counter. -/
def demoFiles (st : RState S De Ee Go Jo Gid Glog) (demonstration : De)
    (eef_demonstration : Ee) : Store De Ee Go Jo Gid Glog :=
  { st.files with
    demos := (st.record_demo_id, demonstration) :: st.files.demos,
    paths := (st.record_demo_id, eef_demonstration) :: st.files.paths }

/-- The successful-path state update of `add_demonstration`: files written,
learner advanced to `s2`, a demo event appended, demo counter bumped. -/
def demoStep (st : RState S De Ee Go Jo Gid Glog) (demonstration : De)
    (eef_demonstration : Ee) (s2 : S) (promp_index : Int) :
    RState S De Ee Go Jo Gid Glog :=
  { st with
    files := demoFiles st demonstration eef_demonstration,
    learner := s2,
    sequence := st.sequence ++ [Event.demo promp_index],
    record_demo_id := st.record_demo_id + 1 }

/-- `replayable.py` `add_demonstration`: persist the joint-space demo and
the end-effector path under the current demo counter, then delegate to the
Learner's `add_demonstration` (unforced); on success append a demo event
recording the receiving primitive index, bump the demo counter and return
that index unchanged.  The file writes precede the Learner call, so the
returned store contains them even when the Learner raises. -/
def add_demonstration (L : Learner S De Ee Go Jo Tj Gid Glog)
    (st : RState S De Ee Go Jo Gid Glog) (demonstration : De)
    (eef_demonstration : Ee) :
    Store De Ee Go Jo Gid Glog × Except String (RState S De Ee Go Jo Gid Glog × Int) :=
  match L.add_demonstration st.learner demonstration eef_demonstration none with
  | .error e => (demoFiles st demonstration eef_demonstration, .error e)
  | .ok (s2, promp_index) =>
      (demoFiles st demonstration eef_demonstration,
       .ok (demoStep st demonstration eef_demonstration s2 promp_index, promp_index))

/-- The file writes performed by `set_goal`: the cartesian goal always, the
joint goal only when provided, both under the current goal counter. -/
def goalFiles (st : RState S De Ee Go Jo Gid Glog) (x_des : Go)
    (joint_des : Option Jo) : Store De Ee Go Jo Gid Glog :=
  { st.files with
    carts := (st.record_goal_id, x_des) :: st.files.carts,
    joints := match joint_des with
      | some jv => (st.record_goal_id, jv) :: st.files.joints
      | none => st.files.joints }

/-- The successful-path state update of `set_goal`: files written, learner
advanced to `s2`, a goal event capturing the learner's `goal_id` and
`goal_log` (read after the call) appended, goal counter bumped. -/
def goalStep (L : Learner S De Ee Go Jo Tj Gid Glog)
    (st : RState S De Ee Go Jo Gid Glog) (x_des : Go) (joint_des : Option Jo)
    (s2 : S) : RState S De Ee Go Jo Gid Glog :=
  { st with
    files := goalFiles st x_des joint_des,
    learner := s2,
    sequence := st.sequence ++ [Event.goal (L.goal_id s2) (L.goal_log s2)],
    record_goal_id := st.record_goal_id + 1 }

/-- `replayable.py` `set_goal`: delegate to the Learner's `set_goal` first
(with its default `refining=True`), then persist the cartesian goal
(always) and the joint goal (only when provided) under the current goal
counter, append a goal event capturing the learner's `goal_id`/`goal_log`
after the call, bump the goal counter, and return the Learner's boolean
unchanged.  When the Learner raises, nothing has been persisted yet. -/
def set_goal (L : Learner S De Ee Go Jo Tj Gid Glog)
    (st : RState S De Ee Go Jo Gid Glog) (x_des : Go) (joint_des : Option Jo) :
    Store De Ee Go Jo Gid Glog × Except String (RState S De Ee Go Jo Gid Glog × Bool) :=
  match L.set_goal st.learner x_des joint_des true with
  | .error e => (st.files, .error e)
  | .ok (s2, ret) =>
      (goalFiles st x_des joint_des,
       .ok (goalStep L st x_des joint_des s2, ret))

/-- `replayable.py` `close`: write the whole in-memory sequence to
`sequence.json` in one write (overwriting any previous manifest), reset
both counters to zero and clear the Learner.  Payload files and the
in-memory sequence are left untouched. -/
def close (L : Learner S De Ee Go Jo Tj Gid Glog)
    (st : RState S De Ee Go Jo Gid Glog) : RState S De Ee Go Jo Gid Glog :=
  { st with
    files := { st.files with manifest := some st.sequence },
    record_demo_id := 0,
    record_goal_id := 0,
    learner := L.clear st.learner }

/-- The target override computed in `_play_next_demo`:
`-1 if self.num_primitives <= receiving_promp else receiving_promp`. -/
def promp_target (num_primitives : Nat) (receiving_promp : Int) : Int :=
  if (num_primitives : Int) ≤ receiving_promp then -1 else receiving_promp

/-- `replayable.py` `_play_next_demo`: load the demo and path payloads at
the current demo counter (a missing file is a read error), bump the
counter, and resubmit to the Learner with `force_mp_target` as computed by
`promp_target`. -/
def _play_next_demo (L : Learner S De Ee Go Jo Tj Gid Glog)
    (st : RState S De Ee Go Jo Gid Glog) (receiving_promp : Int) :
    Except String (RState S De Ee Go Jo Gid Glog × Int) :=
  match fsLookup st.files.demos st.record_demo_id with
  | none => .error "missing demo file"
  | some demonstration =>
    match fsLookup st.files.paths st.record_demo_id with
    | none => .error "missing path file"
    | some eef_demonstration =>
      match L.add_demonstration st.learner demonstration eef_demonstration
          (some (promp_target (L.num_primitives st.learner) receiving_promp)) with
      | .error e => .error e
      | .ok (s2, idx) =>
          .ok ({ st with record_demo_id := st.record_demo_id + 1,
                         learner := s2 }, idx)

/-- `replayable.py` `_play_next_goal`: load the cartesian goal at the
current goal counter (a missing file is a read error), load the joint goal
only if its file exists, bump the counter, delegate to the Learner's
`set_goal` with the given refining flag, and on acceptance also generate a
trajectory. -/
def _play_next_goal (L : Learner S De Ee Go Jo Tj Gid Glog) (refining : Bool)
    (st : RState S De Ee Go Jo Gid Glog) :
    Except String (RState S De Ee Go Jo Gid Glog × (Bool × Option Tj)) :=
  match fsLookup st.files.carts st.record_goal_id with
  | none => .error "missing cart goal file"
  | some x_des =>
    let joint_des := fsLookup st.files.joints st.record_goal_id
    match L.set_goal st.learner x_des joint_des refining with
    | .error e => .error e
    | .ok (s2, result) =>
        .ok ({ st with record_goal_id := st.record_goal_id + 1,
                       learner := s2 },
             (result, if result then some (L.generate_trajectory s2) else none))

/-- One entry of the timeline returned by `play`: either
`{'type': 'demo', 'added_to': ...}` or
`{'type': 'goal', 'is_reached': ..., 'log': ..., 'trajectory': ...}`. -/
inductive TimelineEntry (Glog Tj : Type) : Type
  | demo (added_to : Int)
  | goal (is_reached : Bool) (log : Glog) (trajectory : Option Tj)

/-- The event loop of `replayable.py` `play`: iterate the loaded sequence
in order, replaying each demo with the recorded target when `keep_targets`
is set (the sentinel `-1` otherwise) and each goal with the given refining
flag; the goal timeline entry reads the learner's `goal_log` after the
replayed call. -/
def playEvents (L : Learner S De Ee Go Jo Tj Gid Glog)
    (keep_targets refining : Bool) :
    List (Event Gid Glog) → RState S De Ee Go Jo Gid Glog →
    Except String (RState S De Ee Go Jo Gid Glog × List (TimelineEntry Glog Tj))
  | [], st => .ok (st, [])
  | Event.demo added_to :: rest, st =>
    match _play_next_demo L st (if keep_targets then added_to else -1) with
    | .error e => .error e
    | .ok (st2, target) =>
      match playEvents L keep_targets refining rest st2 with
      | .error e => .error e
      | .ok (st3, tl) => .ok (st3, TimelineEntry.demo target :: tl)
  | Event.goal _ _ :: rest, st =>
    match _play_next_goal L refining st with
    | .error e => .error e
    | .ok (st2, (is_reached, trajectory)) =>
      match playEvents L keep_targets refining rest st2 with
      | .error e => .error e
      | .ok (st3, tl) =>
          .ok (st3, TimelineEntry.goal is_reached (L.goal_log st2.learner)
                      trajectory :: tl)

/-- `replayable.py` `play`: reset both counters, reload the in-memory
sequence from the manifest (a missing manifest is a read error), and
replay the loaded events in order, collecting the timeline. -/
def play (L : Learner S De Ee Go Jo Tj Gid Glog) (keep_targets refining : Bool)
    (st : RState S De Ee Go Jo Gid Glog) :
    Except String (RState S De Ee Go Jo Gid Glog × List (TimelineEntry Glog Tj)) :=
  let st0 := { st with record_demo_id := 0, record_goal_id := 0 }
  match st0.files.manifest with
  | none => .error "missing sequence file"
  | some evs => playEvents L keep_targets refining evs { st0 with sequence := evs }

/-- One recording call made by a client of the recorder: a demonstration
or a goal request. -/
inductive RecInput (De Ee Go Jo : Type) : Type
  | demo (demonstration : De) (eef_demonstration : Ee)
  | goal (x_des : Go) (joint_des : Option Jo)

/-- The value returned to the client by one recording call. -/
inductive Outcome : Type
  | demo (promp_index : Int)
  | goal (ret : Bool)

/-- A client session against the recorder: the recording calls applied in
order, stopping at the first Learner failure, collecting the returned
values. -/
def runRecord (L : Learner S De Ee Go Jo Tj Gid Glog) :
    List (RecInput De Ee Go Jo) → RState S De Ee Go Jo Gid Glog →
    Except String (RState S De Ee Go Jo Gid Glog × List Outcome)
  | [], st => .ok (st, [])
  | RecInput.demo d e :: rest, st =>
    match (add_demonstration L st d e).2 with
    | .error err => .error err
    | .ok (st2, i) =>
      match runRecord L rest st2 with
      | .error err => .error err
      | .ok (st3, outs) => .ok (st3, Outcome.demo i :: outs)
  | RecInput.goal x j :: rest, st =>
    match (set_goal L st x j).2 with
    | .error err => .error err
    | .ok (st2, ret) =>
      match runRecord L rest st2 with
      | .error err => .error err
      | .ok (st3, outs) => .ok (st3, Outcome.goal ret :: outs)

/-- Number of demonstration calls in a recording session. -/
def countRecDemos {De Ee Go Jo : Type} : List (RecInput De Ee Go Jo) → Nat
  | [] => 0
  | RecInput.demo _ _ :: rest => countRecDemos rest + 1
  | RecInput.goal _ _ :: rest => countRecDemos rest

/-- Number of goal calls in a recording session. -/
def countRecGoals {De Ee Go Jo : Type} : List (RecInput De Ee Go Jo) → Nat
  | [] => 0
  | RecInput.demo _ _ :: rest => countRecGoals rest
  | RecInput.goal _ _ :: rest => countRecGoals rest + 1

/-- Number of demo events in a manifest. -/
def countEvDemos {Gid Glog : Type} : List (Event Gid Glog) → Nat
  | [] => 0
  | Event.demo _ :: rest => countEvDemos rest + 1
  | Event.goal _ _ :: rest => countEvDemos rest

/-- Number of goal events in a manifest. -/
def countEvGoals {Gid Glog : Type} : List (Event Gid Glog) → Nat
  | [] => 0
  | Event.demo _ :: rest => countEvGoals rest
  | Event.goal _ _ :: rest => countEvGoals rest + 1

/-- The replay timeline reproduces the originally returned outcomes: same
`added_to` for every demo event, same `is_reached` for every goal event,
event-for-event, in the same order. -/
def timelineMatches {Glog Tj : Type} :
    List Outcome → List (TimelineEntry Glog Tj) → Prop
  | [], [] => True
  | Outcome.demo i :: outs, TimelineEntry.demo j :: tl =>
      i = j ∧ timelineMatches outs tl
  | Outcome.goal r :: outs, TimelineEntry.goal b _ _ :: tl =>
      r = b ∧ timelineMatches outs tl
  | _, _ => False

/-- Modelled from the spec: the Learner contract behind the round-trip
property.  When an unforced `add_demonstration` from state `s` absorbs the
demo into primitive `i`, resubmitting the same demo from the same state
with `force_mp_target` as `_play_next_demo` computes it (`i` when `i` is an
existing primitive of `s`, the sentinel `-1` otherwise — mirroring the
"new primitive created" branch) reaches the same state and reports the same
index. -/
def ForceCoherent (L : Learner S De Ee Go Jo Tj Gid Glog) : Prop :=
  ∀ s d e s2 i, L.add_demonstration s d e none = .ok (s2, i) →
    L.add_demonstration s d e (some (promp_target (L.num_primitives s) i)) =
      .ok (s2, i)

/-- No payload file at or above the given counters exists yet in the
store (a fresh dataset, or one where the counters have not yet reached
those indices). -/
def Fresh (F : Store De Ee Go Jo Gid Glog) (dk gk : Nat) : Prop :=
  (∀ k, dk ≤ k → fsLookup F.demos k = none ∧ fsLookup F.paths k = none) ∧
  (∀ k, gk ≤ k → fsLookup F.carts k = none ∧ fsLookup F.joints k = none)

/-- `replayable.py` `get_dataset_path`:
`join(path_ds, 'dataset_{}'.format(dataset_id))`, with `os.path.join`
modelled as `'/'`-separated concatenation. -/
def get_dataset_path (path_ds : String) (dataset_id : Int) : String :=
  path_ds ++ "/dataset_" ++ toString dataset_id

/-- `replayable.py` `generate_next_dataset`: scan ids `0..99` in order for
the first whose path does not exist and return it together with its path;
falling off the end of the loop returns Python `None`, modelled as
`Option.none` — no exception is raised.  The filesystem is modelled as the
list of existing paths. -/
def generate_next_dataset (path_ds : String) (fs : List String) :
    Option (Nat × String) :=
  ((List.range 100).find?
      (fun (i : Nat) => ! decide (get_dataset_path path_ds (Int.ofNat i) ∈ fs))).map
    (fun (i : Nat) => (i, get_dataset_path path_ds (Int.ofNat i)))

/-- The auto-id branch of the constructor (`dataset_id < 0`): pick the
first free id via `generate_next_dataset`, then create the directory
(`makedirs` guarded by the existence check).  Returns the chosen id, its
path, and the filesystem afterwards; `none` when the scan is exhausted. -/
def initAuto (path_ds : String) (fs : List String) :
    Option (Nat × String × List String) :=
  match generate_next_dataset path_ds fs with
  | none => none
  | some (i, p) => some (i, p, if p ∈ fs then fs else p :: fs)

/-- The explicit-id branch of the constructor (`dataset_id ≥ 0`): resolve
the fixed path for the requested id and create the directory if missing. -/
def initExplicit (path_ds : String) (dataset_id : Int) (fs : List String) :
    String × List String :=
  let p := get_dataset_path path_ds dataset_id
  (p, if p ∈ fs then fs else p :: fs)

/-- A small deterministic Learner over state = primitive count, used to
exercise the recorder on concrete runs: an unforced demo creates a new
primitive and reports its index; a forced demo targets the forced primitive
when it is a valid existing index and otherwise creates a new one; goals
are always accepted. -/
def LC : Learner Nat Nat Nat Nat Nat Nat Nat Nat where
  add_demonstration := fun s _ _ f =>
    match f with
    | some t => if 0 ≤ t ∧ t < (s : Int) then .ok (s, t) else .ok (s + 1, (s : Int))
    | none => .ok (s + 1, (s : Int))
  set_goal := fun s _ _ _ => .ok (s, true)
  goal_id := fun s => s
  goal_log := fun s => s
  num_primitives := fun s => s
  generate_trajectory := fun s => s
  clear := fun _ => 0

/-- A Learner whose fallible operations always raise, for observing
failure propagation. -/
def LErr : Learner Nat Nat Nat Nat Nat Nat Nat Nat where
  add_demonstration := fun _ _ _ _ => .error "rejected"
  set_goal := fun _ _ _ _ => .error "rejected"
  goal_id := fun s => s
  goal_log := fun s => s
  num_primitives := fun s => s
  generate_trajectory := fun s => s
  clear := fun _ => 0

end Promp

namespace Promp

variable {S De Ee Go Jo Tj Gid Glog : Type}

/-- Helper: a successful `generate_next_dataset` returns the path of the
returned id, and that path did not exist in the scanned filesystem. -/
theorem generate_next_dataset_some (path_ds : String) (fs : List String)
    {i : Nat} {p : String}
    (h : generate_next_dataset path_ds fs = some (i, p)) :
    p = get_dataset_path path_ds (Int.ofNat i) ∧
      get_dataset_path path_ds (Int.ofNat i) ∉ fs := by
  unfold generate_next_dataset at h
  cases hf : (List.range 100).find?
      (fun (j : Nat) => ! decide (get_dataset_path path_ds (Int.ofNat j) ∈ fs)) with
  | none => rw [hf] at h; simp at h
  | some j =>
    rw [hf] at h
    have hj := List.find?_some hf
    simp only [Bool.not_eq_true', decide_eq_false_iff_not] at hj
    simp only [Option.map_some', Option.some.injEq, Prod.mk.injEq] at h
    obtain ⟨hji, hp⟩ := h
    subst hji
    exact ⟨hp.symm, hj⟩

/-- C2: `_play_next_demo` forwards the resubmission with the sentinel
target `-1` exactly when `receiving_promp` is at least the Learner's
current primitive count, and with the forced target `receiving_promp`
otherwise; in either case the forwarded target is below the current
primitive count, so the Learner is never given an out-of-range forced
index. -/
theorem promp_target_override (n : Nat) (r : Int) :
    ((n : Int) ≤ r → promp_target n r = -1) ∧
    (r < (n : Int) → promp_target n r = r) ∧
    promp_target n r < (n : Int) := by
  unfold promp_target
  split
  · rename_i hle
    exact ⟨fun _ => rfl, fun hlt => absurd hle (not_le.mpr hlt), by omega⟩
  · rename_i hnle
    exact ⟨fun hle => absurd hle hnle, fun _ => rfl, by omega⟩

theorem promp_target_override_witness :
    ((2 : Nat) : Int) ≤ (5 : Int) ∧ promp_target 2 5 = -1 ∧
      (1 : Int) < ((2 : Nat) : Int) ∧ promp_target 2 1 = 1 :=
  ⟨by decide, (promp_target_override 2 5).1 (by decide), by decide,
    (promp_target_override 2 1).2.1 (by decide)⟩

/-- C4: `close` writes the full in-memory sequence to the manifest in one
single overwriting write, resets both counters to zero and clears the
Learner's fitted state, while every previously persisted payload file
(demo, path, cartesian goal, joint goal) is left exactly as it was, so the
dataset remains replayable. -/
theorem close_effects (L : Learner S De Ee Go Jo Tj Gid Glog)
    (st : RState S De Ee Go Jo Gid Glog) :
    (close L st).files.manifest = some st.sequence ∧
    (close L st).record_demo_id = 0 ∧
    (close L st).record_goal_id = 0 ∧
    (close L st).learner = L.clear st.learner ∧
    (close L st).files.demos = st.files.demos ∧
    (close L st).files.paths = st.files.paths ∧
    (close L st).files.carts = st.files.carts ∧
    (close L st).files.joints = st.files.joints :=
  ⟨rfl, rfl, rfl, rfl, rfl, rfl, rfl, rfl⟩

/-- C7: when every id in the bounded scan range `0..99` already has an
existing dataset path, `generate_next_dataset` falls off its loop and
yields Python `None` (no usable id); its type raises no error — there is no
explicit failure signal. -/
theorem generate_next_dataset_exhausted (path_ds : String) (fs : List String)
    (h : ∀ i : Nat, i < 100 → get_dataset_path path_ds (Int.ofNat i) ∈ fs) :
    generate_next_dataset path_ds fs = none := by
  unfold generate_next_dataset
  have hnone : (List.range 100).find?
      (fun (i : Nat) => ! decide (get_dataset_path path_ds (Int.ofNat i) ∈ fs)) = none := by
    rw [List.find?_eq_none]
    intro i hi
    simp only [Bool.not_eq_true', decide_eq_false_iff_not, Decidable.not_not]
    exact h i (List.mem_range.mp hi)
  rw [hnone]
  rfl

theorem generate_next_dataset_exhausted_witness :
    generate_next_dataset "ds"
      ((List.range 100).map (fun i => get_dataset_path "ds" (Int.ofNat i))) = none :=
  generate_next_dataset_exhausted "ds" _
    (fun i hi => List.mem_map.mpr ⟨i, List.mem_range.mpr hi, rfl⟩)

/-- C8: two recorders constructed back-to-back with a negative (auto)
dataset id never receive the same id while the scan range is not exhausted:
the first construction creates the claimed dataset directory, so the second
scan skips that path and picks a distinct id. -/
theorem auto_id_distinct (path_ds : String) (fs fs2 fs3 : List String)
    (i1 i2 : Nat) (p1 p2 : String)
    (h1 : initAuto path_ds fs = some (i1, p1, fs2))
    (h2 : initAuto path_ds fs2 = some (i2, p2, fs3)) :
    i1 ≠ i2 := by
  unfold initAuto at h1 h2
  cases hg1 : generate_next_dataset path_ds fs with
  | none => rw [hg1] at h1; exact absurd h1 (by simp)
  | some ip1 =>
    obtain ⟨j1, q1⟩ := ip1
    obtain ⟨hq1, hnot1⟩ := generate_next_dataset_some path_ds fs hg1
    rw [hg1] at h1
    simp only [Option.some.injEq, Prod.mk.injEq] at h1
    obtain ⟨hj1, hp1, hf2⟩ := h1
    subst hj1; subst hp1; subst hq1
    rw [if_neg hnot1] at hf2
    cases hg2 : generate_next_dataset path_ds fs2 with
    | none => rw [hg2] at h2; exact absurd h2 (by simp)
    | some ip2 =>
      obtain ⟨j2, q2⟩ := ip2
      obtain ⟨hq2, hnot2⟩ := generate_next_dataset_some path_ds fs2 hg2
      rw [hg2] at h2
      simp only [Option.some.injEq, Prod.mk.injEq] at h2
      obtain ⟨hj2, _, _⟩ := h2
      subst hj2
      intro hcontra
      subst hcontra
      rw [← hf2] at hnot2
      exact hnot2 (List.mem_cons_self _ _)

theorem auto_id_distinct_witness :
    initAuto "x" [] = some (0, "x/dataset_0", ["x/dataset_0"]) ∧
    initAuto "x" ["x/dataset_0"] =
      some (1, "x/dataset_1", ["x/dataset_1", "x/dataset_0"]) ∧
    (0 : Nat) ≠ 1 :=
  ⟨rfl, rfl,
    auto_id_distinct "x" [] ["x/dataset_0"] ["x/dataset_1", "x/dataset_0"]
      0 1 "x/dataset_0" "x/dataset_1" rfl rfl⟩

/-- C9: for an explicit non-negative dataset id, path resolution is a
deterministic function of the id and the datasets folder: running the
constructor's id-resolution twice with the same id yields the same path,
whatever the state of the filesystem (so whether or not data already exists
at that path). -/
theorem dataset_path_deterministic (path_ds : String) (d : Int)
    (fs1 fs2 : List String) (h : 0 ≤ d) :
    (initExplicit path_ds d fs1).1 = (initExplicit path_ds d fs2).1 := rfl

theorem dataset_path_deterministic_witness :
    (0 : Int) ≤ 5 ∧
      (initExplicit "ds" 5 []).1 = (initExplicit "ds" 5 ["ds/dataset_5"]).1 :=
  ⟨by decide, dataset_path_deterministic "ds" 5 [] ["ds/dataset_5"] (by decide)⟩

end Promp

namespace Promp

variable {S De Ee Go Jo Tj Gid Glog : Type}

/-- Helper: a successful `_play_next_demo` bumps the demo counter by one
and touches neither the goal counter, the files, nor the sequence. -/
theorem play_next_demo_counters (L : Learner S De Ee Go Jo Tj Gid Glog)
    (st st2 : RState S De Ee Go Jo Gid Glog) (r i : Int)
    (h : _play_next_demo L st r = .ok (st2, i)) :
    st2.record_demo_id = st.record_demo_id + 1 ∧
    st2.record_goal_id = st.record_goal_id ∧
    st2.files = st.files ∧ st2.sequence = st.sequence := by
  unfold _play_next_demo at h
  split at h
  · simp at h
  · split at h
    · simp at h
    · split at h
      · simp at h
      · simp only [Except.ok.injEq, Prod.mk.injEq] at h
        obtain ⟨hst, _⟩ := h
        subst hst
        exact ⟨rfl, rfl, rfl, rfl⟩

/-- Helper: a successful `_play_next_goal` bumps the goal counter by one
and touches neither the demo counter, the files, nor the sequence. -/
theorem play_next_goal_counters (L : Learner S De Ee Go Jo Tj Gid Glog)
    (rf : Bool) (st st2 : RState S De Ee Go Jo Gid Glog) (b : Bool)
    (tj : Option Tj)
    (h : _play_next_goal L rf st = .ok (st2, (b, tj))) :
    st2.record_goal_id = st.record_goal_id + 1 ∧
    st2.record_demo_id = st.record_demo_id ∧
    st2.files = st.files ∧ st2.sequence = st.sequence := by
  unfold _play_next_goal at h
  split at h
  · simp at h
  · dsimp only at h
    split at h
    · simp at h
    · simp only [Except.ok.injEq, Prod.mk.injEq] at h
      obtain ⟨hst, _⟩ := h
      subst hst
      exact ⟨rfl, rfl, rfl, rfl⟩

/-- Helper: a successful recording session advances each counter by
exactly the number of calls of its kind. -/
theorem runRecord_counters (L : Learner S De Ee Go Jo Tj Gid Glog) :
    ∀ (ins : List (RecInput De Ee Go Jo))
      (st st1 : RState S De Ee Go Jo Gid Glog) (outs : List Outcome),
    runRecord L ins st = .ok (st1, outs) →
    st1.record_demo_id = st.record_demo_id + countRecDemos ins ∧
    st1.record_goal_id = st.record_goal_id + countRecGoals ins := by
  intro ins
  induction ins with
  | nil =>
    intro st st1 outs h
    simp only [runRecord, Except.ok.injEq, Prod.mk.injEq] at h
    obtain ⟨h1, _⟩ := h
    subst h1
    simp [countRecDemos, countRecGoals]
  | cons head rest ih =>
    intro st st1 outs h
    cases head with
    | demo d e =>
      cases hAD : L.add_demonstration st.learner d e none with
      | error err => simp [runRecord, add_demonstration, hAD] at h
      | ok p =>
        obtain ⟨s2, i⟩ := p
        simp only [runRecord, add_demonstration, hAD] at h
        cases hR : runRecord L rest (demoStep st d e s2 i) with
        | error err => rw [hR] at h; simp at h
        | ok q =>
          obtain ⟨st3, outs3⟩ := q
          rw [hR] at h
          simp only [Except.ok.injEq, Prod.mk.injEq] at h
          obtain ⟨h1, _⟩ := h
          subst h1
          have hih := ih (demoStep st d e s2 i) st3 outs3 hR
          simp only [demoStep, countRecDemos, countRecGoals] at hih ⊢
          omega
    | goal x j =>
      cases hSG : L.set_goal st.learner x j true with
      | error err => simp [runRecord, set_goal, hSG] at h
      | ok p =>
        obtain ⟨s2, ret⟩ := p
        simp only [runRecord, set_goal, hSG] at h
        cases hR : runRecord L rest (goalStep L st x j s2) with
        | error err => rw [hR] at h; simp at h
        | ok q =>
          obtain ⟨st3, outs3⟩ := q
          rw [hR] at h
          simp only [Except.ok.injEq, Prod.mk.injEq] at h
          obtain ⟨h1, _⟩ := h
          subst h1
          have hih := ih (goalStep L st x j s2) st3 outs3 hR
          simp only [goalStep, countRecDemos, countRecGoals] at hih ⊢
          omega

/-- Helper: a completed replay loop advances each counter by exactly the
number of events of its kind in the replayed list. -/
theorem playEvents_counters (L : Learner S De Ee Go Jo Tj Gid Glog)
    (kt rf : Bool) :
    ∀ (evs : List (Event Gid Glog)) (st st1 : RState S De Ee Go Jo Gid Glog)
      (tl : List (TimelineEntry Glog Tj)),
    playEvents L kt rf evs st = .ok (st1, tl) →
    st1.record_demo_id = st.record_demo_id + countEvDemos evs ∧
    st1.record_goal_id = st.record_goal_id + countEvGoals evs := by
  intro evs
  induction evs with
  | nil =>
    intro st st1 tl h
    simp only [playEvents, Except.ok.injEq, Prod.mk.injEq] at h
    obtain ⟨h1, _⟩ := h
    subst h1
    simp [countEvDemos, countEvGoals]
  | cons ev rest ih =>
    intro st st1 tl h
    cases ev with
    | demo a =>
      simp only [playEvents] at h
      cases hpd : _play_next_demo L st (if kt then a else -1) with
      | error e => rw [hpd] at h; simp at h
      | ok p =>
        obtain ⟨st2, tgt⟩ := p
        rw [hpd] at h
        simp only at h
        cases hpe : playEvents L kt rf rest st2 with
        | error e => rw [hpe] at h; simp at h
        | ok q =>
          obtain ⟨st3, tl3⟩ := q
          rw [hpe] at h
          simp only [Except.ok.injEq, Prod.mk.injEq] at h
          obtain ⟨h1, _⟩ := h
          subst h1
          have h2 := ih st2 st3 tl3 hpe
          have h3 := play_next_demo_counters L st st2 _ _ hpd
          simp only [countEvDemos, countEvGoals]
          omega
    | goal gi gl =>
      simp only [playEvents] at h
      cases hpg : _play_next_goal L rf st with
      | error e => rw [hpg] at h; simp at h
      | ok p =>
        obtain ⟨st2, pr⟩ := p
        obtain ⟨b, tj⟩ := pr
        rw [hpg] at h
        simp only at h
        cases hpe : playEvents L kt rf rest st2 with
        | error e => rw [hpe] at h; simp at h
        | ok q =>
          obtain ⟨st3, tl3⟩ := q
          rw [hpe] at h
          simp only [Except.ok.injEq, Prod.mk.injEq] at h
          obtain ⟨h1, _⟩ := h
          subst h1
          have h2 := ih st2 st3 tl3 hpe
          have h3 := play_next_goal_counters L rf st st2 b tj hpg
          simp only [countEvDemos, countEvGoals]
          omega

/-- C3: starting from a fresh instance or immediately after `close` (both
counters zero), a successful recording of K demonstrations and M goals
leaves `record_demo_id = K` and `record_goal_id = M`; after any `close`
both counters are zero; and a completed `play` leaves `record_demo_id`
equal to the number of demo events and `record_goal_id` equal to the
number of goal events in the persisted manifest. -/
theorem counter_invariants (L : Learner S De Ee Go Jo Tj Gid Glog) :
    (∀ (ins : List (RecInput De Ee Go Jo))
       (st st1 : RState S De Ee Go Jo Gid Glog) (outs : List Outcome),
      st.record_demo_id = 0 → st.record_goal_id = 0 →
      runRecord L ins st = .ok (st1, outs) →
      st1.record_demo_id = countRecDemos ins ∧
      st1.record_goal_id = countRecGoals ins) ∧
    (∀ st : RState S De Ee Go Jo Gid Glog,
      (close L st).record_demo_id = 0 ∧ (close L st).record_goal_id = 0) ∧
    (∀ (kt rf : Bool) (st st1 : RState S De Ee Go Jo Gid Glog)
       (evs : List (Event Gid Glog)) (tl : List (TimelineEntry Glog Tj)),
      st.files.manifest = some evs →
      play L kt rf st = .ok (st1, tl) →
      st1.record_demo_id = countEvDemos evs ∧
      st1.record_goal_id = countEvGoals evs) := by
  refine ⟨?_, ?_, ?_⟩
  · intro ins st st1 outs hd hg hrun
    have := runRecord_counters L ins st st1 outs hrun
    omega
  · intro st
    exact ⟨rfl, rfl⟩
  · intro kt rf st st1 evs tl hman hplay
    simp only [play] at hplay
    rw [show ({ st with record_demo_id := 0, record_goal_id := 0 } :
        RState S De Ee Go Jo Gid Glog).files.manifest = st.files.manifest from rfl,
      hman] at hplay
    simp only at hplay
    have := playEvents_counters L kt rf evs _ st1 tl hplay
    simpa using this

theorem counter_invariants_witness :
    ((⟨1, 1, [Event.demo 0, Event.goal 1 1],
        ⟨[(0, 5)], [(0, 7)], [(0, 3)], [], none⟩, 1⟩ :
          RState Nat Nat Nat Nat Nat Nat Nat).record_demo_id =
        countRecDemos [RecInput.demo (5 : Nat) (7 : Nat),
          RecInput.goal (3 : Nat) (none : Option Nat)] ∧
      (⟨1, 1, [Event.demo 0, Event.goal 1 1],
        ⟨[(0, 5)], [(0, 7)], [(0, 3)], [], none⟩, 1⟩ :
          RState Nat Nat Nat Nat Nat Nat Nat).record_goal_id =
        countRecGoals [RecInput.demo (5 : Nat) (7 : Nat),
          RecInput.goal (3 : Nat) (none : Option Nat)]) ∧
    ((close LC (initState 0)).record_demo_id = 0 ∧
      (close LC (initState 0)).record_goal_id = 0) ∧
    ((⟨0, 0, [], ⟨[], [], [], [], some []⟩, 0⟩ :
        RState Nat Nat Nat Nat Nat Nat Nat).record_demo_id =
        countEvDemos ([] : List (Event Nat Nat)) ∧
      (⟨0, 0, [], ⟨[], [], [], [], some []⟩, 0⟩ :
        RState Nat Nat Nat Nat Nat Nat Nat).record_goal_id =
        countEvGoals ([] : List (Event Nat Nat))) :=
  ⟨(counter_invariants LC).1
      [RecInput.demo 5 7, RecInput.goal 3 none] (initState 0) _
      [Outcome.demo 0, Outcome.goal true] rfl rfl rfl,
    (counter_invariants LC).2.1 (initState 0),
    (counter_invariants LC).2.2 true true
      ⟨5, 7, [], ⟨[], [], [], [], some []⟩, 0⟩ _ [] [] rfl rfl⟩

end Promp

namespace Promp

variable {S De Ee Go Jo Tj Gid Glog : Type}

/-- C5: `set_goal` invokes the Learner's goal-setting operation first and
reads `goal_id`/`goal_log` afterwards (from the post-call learner state);
on success it persists `x_des` unconditionally and `joint_des` exactly when
provided, both under the pre-increment goal counter, appends a goal event
capturing `goal_id` and `goal_log`, increments the counter, and returns the
Learner's boolean unchanged.  On a Learner failure nothing is persisted,
witnessing that the Learner ran first. -/
theorem set_goal_effects (L : Learner S De Ee Go Jo Tj Gid Glog)
    (st : RState S De Ee Go Jo Gid Glog) (x_des : Go) (joint_des : Option Jo) :
    (∀ err, L.set_goal st.learner x_des joint_des true = .error err →
      set_goal L st x_des joint_des = (st.files, .error err)) ∧
    (∀ s2 ret, L.set_goal st.learner x_des joint_des true = .ok (s2, ret) →
      set_goal L st x_des joint_des =
        (goalFiles st x_des joint_des,
          .ok (goalStep L st x_des joint_des s2, ret)) ∧
      fsLookup (goalFiles st x_des joint_des).carts st.record_goal_id =
        some x_des ∧
      (∀ jv, joint_des = some jv →
        fsLookup (goalFiles st x_des joint_des).joints st.record_goal_id =
          some jv) ∧
      (joint_des = none →
        (goalFiles st x_des joint_des).joints = st.files.joints) ∧
      (goalStep L st x_des joint_des s2).sequence =
        st.sequence ++ [Event.goal (L.goal_id s2) (L.goal_log s2)] ∧
      (goalStep L st x_des joint_des s2).record_goal_id =
        st.record_goal_id + 1 ∧
      (goalStep L st x_des joint_des s2).record_demo_id = st.record_demo_id ∧
      (goalStep L st x_des joint_des s2).learner = s2) := by
  constructor
  · intro err herr
    unfold set_goal
    rw [herr]
  · intro s2 ret hok
    refine ⟨?_, ?_, ?_, ?_, rfl, rfl, rfl, rfl⟩
    · unfold set_goal
      rw [hok]
    · simp [goalFiles, fsLookup]
    · intro jv hjv
      subst hjv
      simp [goalFiles, fsLookup]
    · intro hn
      subst hn
      rfl

theorem set_goal_effects_witness :
    set_goal LC (initState 0) 5 (some 9) =
      (goalFiles (initState 0) 5 (some 9),
        .ok (goalStep LC (initState 0) 5 (some 9) 0, true)) ∧
    fsLookup (goalFiles (initState 0 : RState Nat Nat Nat Nat Nat Nat Nat)
        5 (some 9)).carts 0 = some 5 ∧
    fsLookup (goalFiles (initState 0 : RState Nat Nat Nat Nat Nat Nat Nat)
        5 (some 9)).joints 0 = some 9 :=
  ⟨((set_goal_effects LC (initState 0) 5 (some 9)).2 0 true rfl).1,
   ((set_goal_effects LC (initState 0) 5 (some 9)).2 0 true rfl).2.1,
   ((set_goal_effects LC (initState 0) 5 (some 9)).2 0 true rfl).2.2.1 9 rfl⟩

/-- C6 fails as stated on the code: with a Learner whose goal-setting
operation raises, `set_goal` propagates the failure but has persisted
nothing for that occurrence — the cartesian payload for occurrence 0 is
absent from the returned store (the Learner is invoked before any file
write in `set_goal`). -/
theorem learner_failure_cex :
    (set_goal LErr (initState 0) (3 : Nat) (none : Option Nat)).2 =
      .error "rejected" ∧
    fsLookup (set_goal LErr (initState 0) (3 : Nat)
        (none : Option Nat)).1.carts 0 = none ∧
    (set_goal LErr (initState 0) (3 : Nat) (none : Option Nat)).1.joints = [] :=
  ⟨rfl, rfl, rfl⟩

/-- C6 (amended): a Learner failure is propagated to the caller unmodified
by both recording calls; for `add_demonstration` the demo and path payloads
for that occurrence have already been persisted when the failure
propagates, while for `set_goal` the Learner is invoked before persistence,
so a raised failure propagates with no goal payload persisted. -/
theorem persistence_on_failure (L : Learner S De Ee Go Jo Tj Gid Glog)
    (st : RState S De Ee Go Jo Gid Glog) (d : De) (e : Ee) (x_des : Go)
    (joint_des : Option Jo) :
    (∀ err, L.add_demonstration st.learner d e none = .error err →
      add_demonstration L st d e = (demoFiles st d e, .error err) ∧
      fsLookup (demoFiles st d e).demos st.record_demo_id = some d ∧
      fsLookup (demoFiles st d e).paths st.record_demo_id = some e) ∧
    (∀ err, L.set_goal st.learner x_des joint_des true = .error err →
      set_goal L st x_des joint_des = (st.files, .error err)) := by
  constructor
  · intro err herr
    refine ⟨?_, ?_, ?_⟩
    · unfold add_demonstration
      rw [herr]
    · simp [demoFiles, fsLookup]
    · simp [demoFiles, fsLookup]
  · intro err herr
    unfold set_goal
    rw [herr]

theorem persistence_on_failure_witness :
    (add_demonstration LErr (initState 0) 5 7 =
        (demoFiles (initState 0) 5 7, .error "rejected") ∧
      fsLookup (demoFiles (initState 0 : RState Nat Nat Nat Nat Nat Nat Nat)
          5 7).demos 0 = some 5 ∧
      fsLookup (demoFiles (initState 0 : RState Nat Nat Nat Nat Nat Nat Nat)
          5 7).paths 0 = some 7) ∧
    set_goal LErr (initState 0) (3 : Nat) (none : Option Nat) =
      ((initState 0 : RState Nat Nat Nat Nat Nat Nat Nat).files,
        .error "rejected") :=
  ⟨(persistence_on_failure LErr (initState 0) 5 7 3 none).1 "rejected" rfl,
   (persistence_on_failure LErr (initState 0) 5 7 3 none).2 "rejected" rfl⟩

/-- C10: `close` leaves the in-memory event sequence unchanged (it resets
the counters and clears the Learner but does not empty the list), so a
subsequent `add_demonstration` or `set_goal` on the same instance appends
its new event after all previously recorded events, while its payload
files are written starting again from index 0. -/
theorem close_keeps_sequence (L : Learner S De Ee Go Jo Tj Gid Glog)
    (st : RState S De Ee Go Jo Gid Glog) (d : De) (e : Ee) (x_des : Go) :
    (close L st).sequence = st.sequence ∧
    (∀ s2 i, L.add_demonstration (close L st).learner d e none = .ok (s2, i) →
      add_demonstration L (close L st) d e =
        (demoFiles (close L st) d e,
          .ok (demoStep (close L st) d e s2 i, i)) ∧
      (demoStep (close L st) d e s2 i).sequence =
        st.sequence ++ [Event.demo i] ∧
      fsLookup (demoFiles (close L st) d e).demos 0 = some d ∧
      fsLookup (demoFiles (close L st) d e).paths 0 = some e ∧
      (demoStep (close L st) d e s2 i).record_demo_id = 1) ∧
    (∀ s2 ret, L.set_goal (close L st).learner x_des none true = .ok (s2, ret) →
      set_goal L (close L st) x_des none =
        (goalFiles (close L st) x_des none,
          .ok (goalStep L (close L st) x_des none s2, ret)) ∧
      (goalStep L (close L st) x_des none s2).sequence =
        st.sequence ++ [Event.goal (L.goal_id s2) (L.goal_log s2)] ∧
      fsLookup (goalFiles (close L st) x_des none).carts 0 = some x_des ∧
      (goalStep L (close L st) x_des none s2).record_goal_id = 1) := by
  refine ⟨rfl, ?_, ?_⟩
  · intro s2 i hok
    refine ⟨?_, rfl, ?_, ?_, rfl⟩
    · unfold add_demonstration
      rw [hok]
    · simp [demoFiles, close, fsLookup]
    · simp [demoFiles, close, fsLookup]
  · intro s2 ret hok
    refine ⟨?_, rfl, ?_, rfl⟩
    · unfold set_goal
      rw [hok]
    · simp [goalFiles, close, fsLookup]

theorem close_keeps_sequence_witness :
    (close LC (⟨2, 3, [Event.demo 7], ⟨[], [], [], [], none⟩, 4⟩ :
        RState Nat Nat Nat Nat Nat Nat Nat)).sequence = [Event.demo 7] ∧
    (demoStep (close LC (⟨2, 3, [Event.demo 7], ⟨[], [], [], [], none⟩, 4⟩ :
        RState Nat Nat Nat Nat Nat Nat Nat)) 5 7 1 0).sequence =
      [Event.demo 7] ++ [Event.demo 0] ∧
    fsLookup (demoFiles (close LC (⟨2, 3, [Event.demo 7],
        ⟨[], [], [], [], none⟩, 4⟩ : RState Nat Nat Nat Nat Nat Nat Nat))
        5 7).demos 0 = some 5 ∧
    (demoStep (close LC (⟨2, 3, [Event.demo 7], ⟨[], [], [], [], none⟩, 4⟩ :
        RState Nat Nat Nat Nat Nat Nat Nat)) 5 7 1 0).record_demo_id = 1 :=
  ⟨(close_keeps_sequence LC _ 5 7 3).1,
   ((close_keeps_sequence LC _ 5 7 3).2.1 1 0 rfl).2.1,
   ((close_keeps_sequence LC _ 5 7 3).2.1 1 0 rfl).2.2.1,
   ((close_keeps_sequence LC _ 5 7 3).2.1 1 0 rfl).2.2.2.2⟩

end Promp

namespace Promp

variable {S De Ee Go Jo Tj Gid Glog : Type}

/-- Helper: a successful recording session only writes payload files at
indices at or above the starting counters, so every file below them is
preserved, and the counters never decrease. -/
theorem runRecord_preserve (L : Learner S De Ee Go Jo Tj Gid Glog) :
    ∀ (ins : List (RecInput De Ee Go Jo))
      (st st1 : RState S De Ee Go Jo Gid Glog) (outs : List Outcome),
    runRecord L ins st = .ok (st1, outs) →
    st.record_demo_id ≤ st1.record_demo_id ∧
    st.record_goal_id ≤ st1.record_goal_id ∧
    (∀ k, k < st.record_demo_id →
      fsLookup st1.files.demos k = fsLookup st.files.demos k ∧
      fsLookup st1.files.paths k = fsLookup st.files.paths k) ∧
    (∀ k, k < st.record_goal_id →
      fsLookup st1.files.carts k = fsLookup st.files.carts k ∧
      fsLookup st1.files.joints k = fsLookup st.files.joints k) := by
  intro ins
  induction ins with
  | nil =>
    intro st st1 outs h
    simp only [runRecord, Except.ok.injEq, Prod.mk.injEq] at h
    obtain ⟨h1, _⟩ := h
    subst h1
    exact ⟨le_rfl, le_rfl, fun k _ => ⟨rfl, rfl⟩, fun k _ => ⟨rfl, rfl⟩⟩
  | cons head rest ih =>
    intro st st1 outs h
    cases head with
    | demo d e =>
      cases hAD : L.add_demonstration st.learner d e none with
      | error err => simp [runRecord, add_demonstration, hAD] at h
      | ok p =>
        obtain ⟨s2, i⟩ := p
        simp only [runRecord, add_demonstration, hAD] at h
        cases hR : runRecord L rest (demoStep st d e s2 i) with
        | error err => rw [hR] at h; simp at h
        | ok rq =>
          obtain ⟨st3, outs3⟩ := rq
          rw [hR] at h
          simp only [Except.ok.injEq, Prod.mk.injEq] at h
          obtain ⟨h1, _⟩ := h
          subst h1
          obtain ⟨hm1, hm2, hp1, hp2⟩ := ih (demoStep st d e s2 i) st3 outs3 hR
          refine ⟨?_, hm2, ?_, hp2⟩
          · exact le_trans (Nat.le_succ _) hm1
          · intro k hk
            obtain ⟨ha, hb⟩ := hp1 k (Nat.lt_succ_of_lt hk)
            constructor
            · rw [ha]
              simp [demoStep, demoFiles, fsLookup, Nat.ne_of_lt hk]
            · rw [hb]
              simp [demoStep, demoFiles, fsLookup, Nat.ne_of_lt hk]
    | goal x j =>
      cases hSG : L.set_goal st.learner x j true with
      | error err => simp [runRecord, set_goal, hSG] at h
      | ok p =>
        obtain ⟨s2, ret⟩ := p
        simp only [runRecord, set_goal, hSG] at h
        cases hR : runRecord L rest (goalStep L st x j s2) with
        | error err => rw [hR] at h; simp at h
        | ok rq =>
          obtain ⟨st3, outs3⟩ := rq
          rw [hR] at h
          simp only [Except.ok.injEq, Prod.mk.injEq] at h
          obtain ⟨h1, _⟩ := h
          subst h1
          obtain ⟨hm1, hm2, hp1, hp2⟩ := ih (goalStep L st x j s2) st3 outs3 hR
          refine ⟨hm1, ?_, hp1, ?_⟩
          · exact le_trans (Nat.le_succ _) hm2
          · intro k hk
            obtain ⟨ha, hb⟩ := hp2 k (Nat.lt_succ_of_lt hk)
            constructor
            · rw [ha]
              simp [goalStep, goalFiles, fsLookup, Nat.ne_of_lt hk]
            · rw [hb]
              cases j with
              | none => rfl
              | some jv =>
                simp [goalStep, goalFiles, fsLookup, Nat.ne_of_lt hk]

/-- Helper: a demo recording step preserves freshness above the advanced
counters. -/
theorem fresh_demoStep {st : RState S De Ee Go Jo Gid Glog} {d : De} {e : Ee}
    {s2 : S} {i : Int}
    (hF : Fresh st.files st.record_demo_id st.record_goal_id) :
    Fresh (demoStep st d e s2 i).files
      (st.record_demo_id + 1) st.record_goal_id := by
  obtain ⟨hd, hg⟩ := hF
  constructor
  · intro k hk
    obtain ⟨h1, h2⟩ := hd k (by omega)
    have hne : ¬ (k = st.record_demo_id) := by omega
    constructor
    · show fsLookup ((st.record_demo_id, d) :: st.files.demos) k = none
      simp [fsLookup, hne, h1]
    · show fsLookup ((st.record_demo_id, e) :: st.files.paths) k = none
      simp [fsLookup, hne, h2]
  · intro k hk
    exact hg k hk

/-- Helper: a goal recording step preserves freshness above the advanced
counters. -/
theorem fresh_goalStep {L : Learner S De Ee Go Jo Tj Gid Glog}
    {st : RState S De Ee Go Jo Gid Glog} {x : Go} {j : Option Jo} {s2 : S}
    (hF : Fresh st.files st.record_demo_id st.record_goal_id) :
    Fresh (goalStep L st x j s2).files
      st.record_demo_id (st.record_goal_id + 1) := by
  obtain ⟨hd, hg⟩ := hF
  constructor
  · intro k hk
    exact hd k hk
  · intro k hk
    obtain ⟨h1, h2⟩ := hg k (by omega)
    have hne : ¬ (k = st.record_goal_id) := by omega
    constructor
    · show fsLookup ((st.record_goal_id, x) :: st.files.carts) k = none
      simp [fsLookup, hne, h1]
    · cases j with
      | none => exact h2
      | some jv =>
        show fsLookup ((st.record_goal_id, jv) :: st.files.joints) k = none
        simp [fsLookup, hne, h2]

/-- Helper: the round-trip induction.  A successful recording session from
a state whose store is fresh at the current counters appends a block of
events to the sequence, and replaying exactly that block with
`keep_targets = true` and `refining = true` — from the final store, the
recording start counters, and the recording start learner state — succeeds
and reproduces the recorded outcomes, for any in-memory sequence and any
manifest contents. -/
theorem roundtrip_aux (L : Learner S De Ee Go Jo Tj Gid Glog)
    (hco : ForceCoherent L) :
    ∀ (ins : List (RecInput De Ee Go Jo))
      (st st1 : RState S De Ee Go Jo Gid Glog) (outs : List Outcome),
    runRecord L ins st = .ok (st1, outs) →
    Fresh st.files st.record_demo_id st.record_goal_id →
    ∃ evs : List (Event Gid Glog),
      st1.sequence = st.sequence ++ evs ∧
      ∀ (q : List (Event Gid Glog)) (fm : Option (List (Event Gid Glog))),
        ∃ (st2 : RState S De Ee Go Jo Gid Glog)
          (tl : List (TimelineEntry Glog Tj)),
          playEvents L true true evs
            (⟨st.record_demo_id, st.record_goal_id, q,
              { st1.files with manifest := fm }, st.learner⟩ :
              RState S De Ee Go Jo Gid Glog) = .ok (st2, tl) ∧
          timelineMatches outs tl := by
  intro ins
  induction ins with
  | nil =>
    intro st st1 outs h _
    simp only [runRecord, Except.ok.injEq, Prod.mk.injEq] at h
    obtain ⟨h1, h2⟩ := h
    subst h1
    subst h2
    refine ⟨[], (List.append_nil _).symm, ?_⟩
    intro q fm
    exact ⟨_, [], rfl, trivial⟩
  | cons head rest ih =>
    intro st st1 outs h hF
    cases head with
    | demo d e =>
      cases hAD : L.add_demonstration st.learner d e none with
      | error err => simp [runRecord, add_demonstration, hAD] at h
      | ok p =>
        obtain ⟨s2, i⟩ := p
        simp only [runRecord, add_demonstration, hAD] at h
        cases hR : runRecord L rest (demoStep st d e s2 i) with
        | error err => rw [hR] at h; simp at h
        | ok rq =>
          obtain ⟨st3, outs3⟩ := rq
          rw [hR] at h
          simp only [Except.ok.injEq, Prod.mk.injEq] at h
          obtain ⟨h1, h2⟩ := h
          subst h1
          subst h2
          obtain ⟨evs2, hseq2, hplay2⟩ :=
            ih (demoStep st d e s2 i) st3 outs3 hR (fresh_demoStep hF)
          obtain ⟨_, _, hp1, _⟩ := runRecord_preserve L rest _ st3 outs3 hR
          obtain ⟨hld, hlp⟩ := hp1 st.record_demo_id (Nat.lt_succ_self _)
          have hld2 : fsLookup st3.files.demos st.record_demo_id = some d := by
            rw [hld]
            simp [demoStep, demoFiles, fsLookup]
          have hlp2 : fsLookup st3.files.paths st.record_demo_id = some e := by
            rw [hlp]
            simp [demoStep, demoFiles, fsLookup]
          refine ⟨Event.demo i :: evs2, ?_, ?_⟩
          · rw [hseq2]
            simp [demoStep]
          · intro q fm
            obtain ⟨st2, tl2, hpe2, hm2⟩ := hplay2 q fm
            simp only [demoStep, demoFiles] at hpe2
            have hforced := hco st.learner d e s2 i hAD
            have hpd : _play_next_demo L
                (⟨st.record_demo_id, st.record_goal_id, q,
                  { st3.files with manifest := fm }, st.learner⟩ :
                  RState S De Ee Go Jo Gid Glog) i =
                .ok (⟨st.record_demo_id + 1, st.record_goal_id, q,
                  { st3.files with manifest := fm }, s2⟩, i) := by
              simp only [_play_next_demo, hld2, hlp2, hforced]
            refine ⟨st2, TimelineEntry.demo i :: tl2, ?_, ⟨rfl, hm2⟩⟩
            simp only [playEvents, if_true, hpd, hpe2]
    | goal x j =>
      cases hSG : L.set_goal st.learner x j true with
      | error err => simp [runRecord, set_goal, hSG] at h
      | ok p =>
        obtain ⟨s2, ret⟩ := p
        simp only [runRecord, set_goal, hSG] at h
        cases hR : runRecord L rest (goalStep L st x j s2) with
        | error err => rw [hR] at h; simp at h
        | ok rq =>
          obtain ⟨st3, outs3⟩ := rq
          rw [hR] at h
          simp only [Except.ok.injEq, Prod.mk.injEq] at h
          obtain ⟨h1, h2⟩ := h
          subst h1
          subst h2
          obtain ⟨evs2, hseq2, hplay2⟩ :=
            ih (goalStep L st x j s2) st3 outs3 hR (fresh_goalStep hF)
          obtain ⟨_, _, _, hp2⟩ := runRecord_preserve L rest _ st3 outs3 hR
          obtain ⟨hlc, hlj⟩ := hp2 st.record_goal_id (Nat.lt_succ_self _)
          have hlc2 : fsLookup st3.files.carts st.record_goal_id = some x := by
            rw [hlc]
            simp [goalStep, goalFiles, fsLookup]
          have hlj2 : fsLookup st3.files.joints st.record_goal_id = j := by
            rw [hlj]
            cases j with
            | none => exact (hF.2 st.record_goal_id le_rfl).2
            | some jv => simp [goalStep, goalFiles, fsLookup]
          refine ⟨Event.goal (L.goal_id s2) (L.goal_log s2) :: evs2, ?_, ?_⟩
          · rw [hseq2]
            simp [goalStep]
          · intro q fm
            obtain ⟨st2, tl2, hpe2, hm2⟩ := hplay2 q fm
            simp only [goalStep, goalFiles] at hpe2
            have hpg : _play_next_goal L true
                (⟨st.record_demo_id, st.record_goal_id, q,
                  { st3.files with manifest := fm }, st.learner⟩ :
                  RState S De Ee Go Jo Gid Glog) =
                .ok (⟨st.record_demo_id, st.record_goal_id + 1, q,
                  { st3.files with manifest := fm }, s2⟩,
                  (ret, if ret then some (L.generate_trajectory s2) else none)) := by
              simp only [_play_next_goal, hlc2, hlj2, hSG]
            refine ⟨st2, TimelineEntry.goal ret (L.goal_log s2)
                (if ret then some (L.generate_trajectory s2) else none) :: tl2,
              ?_, ⟨rfl, hm2⟩⟩
            simp only [playEvents, hpg, hpe2]

/-- C1: round-trip.  For every sequence of recording calls applied from a
fresh instance and `close()`d, replaying with
`play(keep_targets=True, refining=True)` against the Learner reinitialized
to the same starting state succeeds and yields a timeline with the same
`added_to` for every demo event and the same `is_reached` for every goal
event, event-for-event, in the order originally recorded — provided the
Learner satisfies the force-target contract `ForceCoherent`. -/
theorem round_trip (L : Learner S De Ee Go Jo Tj Gid Glog)
    (hco : ForceCoherent L) (s0 : S)
    (ins : List (RecInput De Ee Go Jo))
    (st1 : RState S De Ee Go Jo Gid Glog) (outs : List Outcome)
    (hrec : runRecord L ins (initState s0) = .ok (st1, outs)) :
    ∃ (st2 : RState S De Ee Go Jo Gid Glog)
      (tl : List (TimelineEntry Glog Tj)),
      play L true true { close L st1 with learner := s0 } = .ok (st2, tl) ∧
      timelineMatches outs tl := by
  obtain ⟨evs, hseq, hplay⟩ :=
    roundtrip_aux L hco ins (initState s0) st1 outs hrec
      ⟨fun _ _ => ⟨rfl, rfl⟩, fun _ _ => ⟨rfl, rfl⟩⟩
  have hevs : evs = st1.sequence := by
    simpa [initState] using hseq.symm
  subst hevs
  obtain ⟨st2, tl, hpe, hm⟩ := hplay st1.sequence (some st1.sequence)
  refine ⟨st2, tl, ?_, hm⟩
  simp only [play, close]
  exact hpe

/-- Helper: the concrete Learner `LC` satisfies the force-target
contract. -/
theorem forceCoherent_LC : ForceCoherent LC := by
  intro s d e s2 i h
  have h2 : s + 1 = s2 ∧ (s : Int) = i := by
    simpa [LC] using h
  obtain ⟨ha, hb⟩ := h2
  subst ha
  subst hb
  simp [LC, promp_target]

theorem round_trip_witness :
    ∃ (st2 : RState Nat Nat Nat Nat Nat Nat Nat)
      (tl : List (TimelineEntry Nat Nat)),
      play LC true true
        { close LC (⟨1, 0, [Event.demo 0], ⟨[(0, 5)], [(0, 7)], [], [], none⟩,
            1⟩ : RState Nat Nat Nat Nat Nat Nat Nat) with learner := 0 } =
        .ok (st2, tl) ∧
      timelineMatches [Outcome.demo 0] tl :=
  round_trip LC forceCoherent_LC 0 [RecInput.demo 5 7] _ [Outcome.demo 0] rfl

end Promp
